import Mathlib

/-!
Verification of the CODECHECK Launch Pad core (shallow embedding).

The definitions below embed the identifier-extraction, next-identifier
calculation, caching and pagination logic of `assets/js/github-api.js`
and the top-level flow of `assets/js/app.js`, together with the constants
of `assets/js/config.js`.  Strings are modelled through their character
lists; JavaScript numbers are natural numbers (all quantities involved are
non-negative integers).
-/

namespace LaunchPad

/-! ### Constants from config.js -/

/-- GITHUB_API.baseURL. -/
def baseURL : String := "https://api.github.com"

/-- GITHUB_API.cacheTimeout: 5 minutes in milliseconds. -/
def cacheTimeout : Nat := 5 * 60 * 1000

/-- APP_CONFIG.identifierPadding. -/
def identifierPadding : Nat := 3

/-! ### Data model -/

/-- A GitHub label, as far as the core reads it. -/
structure IssueLabel where
  name : String
deriving DecidableEq

/-- A GitHub issue, as far as the core reads it. -/
structure Issue where
  number : Nat
  title : String
  state : String
  labels : List IssueLabel
  html_url : String
deriving DecidableEq

/-- An extracted certificate identifier record, mirroring the object
literals pushed by `extractIdentifiers`.  Singleton matches carry no
`rangeStart`/`rangeEnd` keys, modelled as `none`. -/
structure Identifier where
  full : String
  year : Nat
  number : Nat
  issueTitle : String
  issueNumber : Nat
  issueUrl : String
  isFromRange : Bool
  rangeStart : Option String
  rangeEnd : Option String
deriving DecidableEq

/-- The result object of `calculateNextIdentifier`. -/
structure NextIdentifierResult where
  identifier : String
  year : Nat
  number : Nat
  isFirstOfYear : Bool
  highestIdentifier : Option Identifier
deriving DecidableEq

/-! ### String helpers -/

/-- Decimal parser for digit-only strings; on the all-digit tokens produced
by the matchers below it agrees with JavaScript `parseInt`. -/
def parseNum (s : String) : Nat :=
  s.data.foldl (fun acc c => acc * 10 + (c.toNat - '0'.toNat)) 0

/-- JavaScript `String.prototype.padStart`: left-pad with `c` up to
length `n` (no-op when the string is already at least that long). -/
def padStart (s : String) (n : Nat) (c : Char) : String :=
  String.mk (List.replicate (n - s.length) c) ++ s

/-- The year part of a matched token.  Tokens matched by the patterns below
always have the fixed shape `dddd-ddd`, so JavaScript `split('-')[0]` is the
first four characters. -/
def idYearStr (s : String) : String :=
  String.mk (s.data.take 4)

/-- The number part of a matched token (JavaScript `split('-')[1]` on the
fixed `dddd-ddd` shape: everything after the dash). -/
def idNumStr (s : String) : String :=
  String.mk (s.data.drop 5)

/-! ### Regex scanners

`extractIdentifiers` uses `title.matchAll` with the patterns
`/(\d{4}-\d{3})\/(\d{4}-\d{3})/g` and `/(\d{4}-\d{3})/g`.  Both patterns are
fixed-shape (fixed quantifiers, no alternation), so `matchAll` finds, left to
right, every position where the shape matches, resuming after each match.
The scanners below implement exactly that: try the shape at the current
position; on success emit the token(s) and continue after the match, on
failure advance one character.  The fuel starts at the length of the list
and every step consumes at least one character, so it never runs out. -/

/-- Match the fixed shape `\d{4}-\d{3}` at the head of the character list,
returning the 8-character token and the remaining characters. -/
def tryId : List Char → Option (String × List Char)
  | a :: b :: c :: d :: e :: f :: g :: h :: rest =>
    if a.isDigit && b.isDigit && c.isDigit && d.isDigit && e == '-'
        && f.isDigit && g.isDigit && h.isDigit then
      some (String.mk [a, b, c, d, e, f, g, h], rest)
    else none
  | _ => none

/-- Match the fixed shape `\d{4}-\d{3}\/\d{4}-\d{3}` at the head of the
character list, returning both captured tokens and the remainder. -/
def tryRange (l : List Char) : Option ((String × String) × List Char) :=
  match tryId l with
  | some (s, rest) =>
    match rest with
    | '/' :: rest2 =>
      match tryId rest2 with
      | some (e, rest3) => some ((s, e), rest3)
      | none => none
    | _ => none
  | none => none

/-- Fuelled scanner for the singleton pattern. -/
def scanSinglesAux : Nat → List Char → List String
  | 0, _ => []
  | _ + 1, [] => []
  | fuel + 1, a :: cs =>
    match tryId (a :: cs) with
    | some (t, rest) => t :: scanSinglesAux fuel rest
    | none => scanSinglesAux fuel cs

/-- All matches of `/(\d{4}-\d{3})/g` in the title, in order. -/
def scanSingles (l : List Char) : List String :=
  scanSinglesAux l.length l

/-- Fuelled scanner for the range pattern. -/
def scanRangesAux : Nat → List Char → List (String × String)
  | 0, _ => []
  | _ + 1, [] => []
  | fuel + 1, a :: cs =>
    match tryRange (a :: cs) with
    | some (rm, rest) => rm :: scanRangesAux fuel rest
    | none => scanRangesAux fuel cs

/-- All matches of `/(\d{4}-\d{3})\/(\d{4}-\d{3})/g` in the title, in
order, as (start token, end token) pairs. -/
def scanRanges (l : List Char) : List (String × String) :=
  scanRangesAux l.length l

/-! ### Identifier extraction (`extractIdentifiers`) -/

/-- JavaScript `toLowerCase` on the label names in play (ASCII):
character-wise lowering. -/
def lowerString (s : String) : String :=
  String.mk (s.data.map Char.toLower)

/-- The "id assigned" marker-label filter (case-insensitive exact match). -/
def hasIdAssignedLabel (issue : Issue) : Bool :=
  issue.labels.any fun lab => lowerString lab.name == "id assigned"

/-- Expansion of one range match: cross-year ranges are skipped entirely,
same-year ranges yield one record per integer from the start number to the
end number inclusive, formatted with the start token's padding width. -/
def expandRange (issue : Issue) (rm : String × String) : List Identifier :=
  let startId := rm.1
  let endId := rm.2
  let startYearStr := idYearStr startId
  let startNumberStr := idNumStr startId
  let startNumber := parseNum startNumberStr
  let endNumber := parseNum (idNumStr endId)
  if parseNum startYearStr = parseNum (idYearStr endId) then
    (List.range' startNumber (endNumber + 1 - startNumber)).map fun num =>
      { full := startYearStr ++ "-" ++ padStart (Nat.repr num) startNumberStr.length '0'
        year := parseNum startYearStr
        number := num
        issueTitle := issue.title
        issueNumber := issue.number
        issueUrl := issue.html_url
        isFromRange := true
        rangeStart := some startId
        rangeEnd := some endId }
  else []

/-- The `isPartOfRange` test for one range match: same year as the range's
start token and number within the range's numeric bounds. -/
def insideRange (t : String) (rm : String × String) : Bool :=
  let startNumber := parseNum (idNumStr rm.1)
  let endNumber := parseNum (idNumStr rm.2)
  let number := parseNum (idNumStr t)
  parseNum (idYearStr t) == parseNum (idYearStr rm.1)
    && startNumber ≤ number && number ≤ endNumber

/-- `rangeMatches.some (...)` from the singleton pass. -/
def isPartOfRange (rms : List (String × String)) (t : String) : Bool :=
  rms.any (insideRange t)

/-- The record pushed for a standalone (non-range) match. -/
def mkSingleton (issue : Issue) (t : String) : Identifier :=
  { full := t
    year := parseNum (idYearStr t)
    number := parseNum (idNumStr t)
    issueTitle := issue.title
    issueNumber := issue.number
    issueUrl := issue.html_url
    isFromRange := false
    rangeStart := none
    rangeEnd := none }

/-- Identifiers contributed by a single issue: all range expansions first,
then every standalone match not inside an already-matched range.  An empty
title (falsy in JavaScript) contributes nothing. -/
def processIssue (issue : Issue) : List Identifier :=
  if issue.title = "" then []
  else
    let chars := issue.title.data
    let rangeMatches := scanRanges chars
    let rangeIds := rangeMatches.flatMap (expandRange issue)
    let singleIds := (scanSingles chars).filterMap fun t =>
      if isPartOfRange rangeMatches t then none else some (mkSingleton issue t)
    rangeIds ++ singleIds

/-- De-duplication by the `full` string, keeping the first occurrence
(the JavaScript `filter`/`findIndex` idiom). -/
def dedupAux : List String → List Identifier → List Identifier
  | _, [] => []
  | seen, x :: rest =>
    if seen.contains x.full then dedupAux seen rest
    else x :: dedupAux (x.full :: seen) rest

/-- First-occurrence de-duplication by `full`. -/
def dedupByFull (l : List Identifier) : List Identifier :=
  dedupAux [] l

/-- The sort key order of the final comparator: ascending by year, then by
number.  The JavaScript sort is stable (ES2019), as is insertion sort. -/
def keyLe (a b : Identifier) : Prop :=
  a.year < b.year ∨ (a.year = b.year ∧ a.number ≤ b.number)

instance : DecidableRel keyLe := fun a b => by
  unfold keyLe
  exact inferInstance

instance : IsTotal Identifier keyLe :=
  ⟨by intro a b; unfold keyLe; omega⟩

instance : IsTrans Identifier keyLe :=
  ⟨by intro a b c hab hbc; unfold keyLe at hab hbc ⊢; omega⟩

/-- All identifier records produced before de-duplication: issues are first
restricted to those carrying the marker label, then processed in order. -/
def rawIdentifiers (issues : List Issue) : List Identifier :=
  (issues.filter hasIdAssignedLabel).flatMap processIssue

/-- `extractIdentifiers`: gather, de-duplicate by `full` keeping the first
occurrence, and sort ascending by (year, number). -/
def extractIdentifiers (issues : List Issue) : List Identifier :=
  List.insertionSort keyLe (dedupByFull (rawIdentifiers issues))

/-! ### Next identifier calculation (`calculateNextIdentifier`) -/

/-- Maximum of a list of naturals (`Math.max` over a non-empty list of
non-negative integers; the `0` seed is only reached on the empty list,
which the caller guards against). -/
def listMax (l : List Nat) : Nat :=
  l.foldl Nat.max 0

/-- The per-repository, per-year floor: the production register starts
from 28 for 2025, everything else from 1. -/
def minNumberFor (repo : String) (currentYear : Nat) : Nat :=
  if repo == "production" && currentYear == 2025 then 28 else 1

/-- `formatIdentifier`: current year, dash, number zero-padded to the
configured width. -/
def formatIdentifier (currentYear : Nat) (number : Nat) : String :=
  Nat.repr currentYear ++ "-" ++ padStart (Nat.repr number) identifierPadding '0'

/-- `calculateNextIdentifier`.  `repo` is the selected repository key and
`currentYear` is APP_CONFIG.currentYear, both runtime inputs in the source. -/
def calculateNextIdentifier (repo : String) (currentYear : Nat)
    (identifiers : List Identifier) : NextIdentifierResult :=
  let currentYearIdentifiers := identifiers.filter fun i => i.year == currentYear
  let currentYearNumbers := currentYearIdentifiers.map Identifier.number
  let minNumber := minNumberFor repo currentYear
  let maxNumber := listMax currentYearNumbers
  let nextNumber :=
    if currentYearNumbers.isEmpty then minNumber else Nat.max minNumber (maxNumber + 1)
  let highestIdentifier :=
    if currentYearNumbers.isEmpty then none
    else currentYearIdentifiers.find? fun i => i.number == maxNumber
  { identifier := formatIdentifier currentYear nextNumber
    year := currentYear
    number := nextNumber
    isFirstOfYear := nextNumber == minNumber
    highestIdentifier := highestIdentifier }

/-! ### HTTP cache (`makeRequest`)

The cache maps a request signature (URL plus serialised fetch options, the
`cacheKey` of the source) to a response and the timestamp at which it was
stored.  The upstream network is modelled as a function from the index of
the network call to its outcome, so successive fetches may answer
differently; `fetchCount` instruments how many network calls have been
performed.  A failed fetch propagates the error and leaves the cache
untouched. -/

/-- One stored cache entry: response data plus `Date.now()` at store time. -/
structure CacheEntry (α : Type) where
  data : α
  timestamp : Nat
deriving DecidableEq

/-- The client state: the cache `Map` and the number of network calls made. -/
structure ApiState (α : Type) where
  cache : List (String × CacheEntry α)
  fetchCount : Nat
deriving DecidableEq

/-- `Map.get`: the entry stored under `key`, if any. -/
def lookupEntry {α : Type} : List (String × CacheEntry α) → String → Option (CacheEntry α)
  | [], _ => none
  | (k, e) :: rest, key => if k = key then some e else lookupEntry rest key

/-- `Map.set`: store `e` under `key`, overwriting any previous entry. -/
def setEntry {α : Type} :
    List (String × CacheEntry α) → String → CacheEntry α → List (String × CacheEntry α)
  | [], key, e => [(key, e)]
  | (k, e') :: rest, key, e =>
    if k = key then (key, e) :: rest else (k, e') :: setEntry rest key e

/-- The cache key: base URL, endpoint, and the serialised options object. -/
def requestKey (endpoint optionsRepr : String) : String :=
  baseURL ++ endpoint ++ ":" ++ optionsRepr

/-- `makeRequest`: serve from the cache when the stored entry is younger
than `cacheTimeout`, otherwise fetch, store the response with the current
time, and return it.  Rate-limit header logging is a side effect with no
bearing on the result and is omitted. -/
def makeRequest {α : Type} (upstream : Nat → Except String α) (now : Nat)
    (endpoint optionsRepr : String) (st : ApiState α) : Except String α × ApiState α :=
  let cacheKey := requestKey endpoint optionsRepr
  let doFetch :=
    match upstream st.fetchCount with
    | Except.ok d =>
        (Except.ok d,
          { cache := setEntry st.cache cacheKey { data := d, timestamp := now },
            fetchCount := st.fetchCount + 1 })
    | Except.error e =>
        (Except.error e, { cache := st.cache, fetchCount := st.fetchCount + 1 })
  match lookupEntry st.cache cacheKey with
  | some entry =>
    if now - entry.timestamp < cacheTimeout then (Except.ok entry.data, st) else doFetch
  | none => doFetch

/-! ### Pagination (`getRepositoryIssues`)

Each loop iteration requests one page (a distinct endpoint, hence a distinct
request signature); the upstream is abstracted to the function from page
number to the page's items.  The loop starts at page 1, stops on the first
empty page, and otherwise appends the page and increments, stopping once the
incremented page number exceeds 50.  The fuel starts at 50 and one unit is
spent per fetched page, so with pages numbered from 1 it is never exhausted:
at page `p` the remaining fuel is `51 - p`, and the `page + 1 > 50` guard
fires at `p = 50` while one unit of fuel is still available. -/

/-- The `while (hasMore)` loop body of `getRepositoryIssues`. -/
def getIssuesLoop (pages : Nat → List Issue) : Nat → Nat → List Issue → List Issue
  | 0, _, acc => acc
  | fuel + 1, page, acc =>
    let pageIssues := pages page
    if pageIssues.isEmpty then acc
    else if 50 < page + 1 then acc ++ pageIssues
    else getIssuesLoop pages fuel (page + 1) (acc ++ pageIssues)

/-- `getRepositoryIssues`: page through the issue endpoint from page 1. -/
def getRepositoryIssues (pages : Nat → List Issue) : List Issue :=
  getIssuesLoop pages 50 1 []

/-! ### Recent issues and the top-level flow -/

/-- An issue together with its `updated_at` timestamp, as the
sort-by-updated endpoint sees it. -/
structure RecentIssue where
  issue : Issue
  updatedAt : Nat
deriving DecidableEq

/-- Most-recently-updated-first order. -/
def updatedDesc (a b : RecentIssue) : Prop := b.updatedAt ≤ a.updatedAt

instance : DecidableRel updatedDesc := fun a b => by
  unfold updatedDesc
  exact inferInstance

instance : IsTotal RecentIssue updatedDesc :=
  ⟨by intro a b; unfold updatedDesc; omega⟩

instance : IsTrans RecentIssue updatedDesc :=
  ⟨by intro a b c h1 h2; unfold updatedDesc at h1 h2 ⊢; omega⟩

/-- Modelled from the spec: `getRecentIssues(owner, repo, limit)` is invoked
by `loadNextIdentifier` in app.js, but its implementation is absent from the
`GitHubAPI` class in the available sources (only its callers are present).
Section 4.2 of the specification describes it as a single bounded page of
issues sorted by most-recently-updated; the endpoint semantics
(`sort=updated`, descending, one page of `limit` items out of the upstream
pool) are folded into the model. -/
def getRecentIssues (pool : List RecentIssue) (limit : Nat) : List RecentIssue :=
  (List.insertionSort updatedDesc pool).take limit

/-- What `loadNextIdentifier` computes before handing off to the UI. -/
structure LoadResult where
  allIssues : List Issue
  recentIssues : List RecentIssue
  nextIdentifier : NextIdentifierResult
deriving DecidableEq

/-- The data-flow core of `loadNextIdentifier` (app.js): fetch the full
issue history and the 10 most recent issues, extract identifiers from the
full history, and calculate the next identifier.  UI rendering, the
re-entrancy flag and the statistics are presentation concerns not modelled
here. -/
def loadNextIdentifier (repo : String) (currentYear : Nat)
    (pages : Nat → List Issue) (recentPool : List RecentIssue) : LoadResult :=
  let allIssues := getRepositoryIssues pages
  let recentIssues := getRecentIssues recentPool 10
  let identifiers := extractIdentifiers allIssues
  { allIssues := allIssues
    recentIssues := recentIssues
    nextIdentifier := calculateNextIdentifier repo currentYear identifiers }

/-! ### Concrete issues and upstream stubs used by witnesses -/

/-- A concrete year-2025 identifier used by witnesses. -/
def sampleId5 : Identifier :=
  { full := "2025-005", year := 2025, number := 5, issueTitle := "t", issueNumber := 3,
    issueUrl := "u", isFromRange := false, rangeStart := none, rangeEnd := none }

/-- An issue whose title holds a cross-year range token. -/
def issCross : Issue :=
  { number := 1, title := "2024-998/2025-003", state := "open",
    labels := [{ name := "id assigned" }], html_url := "uc" }

/-- An issue whose title holds a cross-year range token whose start endpoint
falls inside the recorded numeric span of the start year. -/
def issCross2 : Issue :=
  { number := 2, title := "2024-001/2025-003", state := "open",
    labels := [{ name := "id assigned" }], html_url := "uc2" }

/-- Issue #5 of the range-expansion example. -/
def issRange : Issue :=
  { number := 5, title := "2025-020/2025-031", state := "open",
    labels := [{ name := "id assigned" }], html_url := "ur" }

/-- An issue whose title holds a range and a standalone token inside it. -/
def issOverlap : Issue :=
  { number := 7, title := "2025-020/2025-031, see also 2025-025", state := "open",
    labels := [{ name := "id assigned" }], html_url := "uo" }

/-- An issue whose title holds a range and a standalone token outside it. -/
def issSkipW : Issue :=
  { number := 9, title := "2025-020/2025-031 and 2024-001", state := "open",
    labels := [{ name := "id assigned" }], html_url := "uw" }

/-- An issue contributing two distinct standalone identifiers. -/
def issPair : Issue :=
  { number := 11, title := "2024-001 and 2024-002", state := "open",
    labels := [{ name := "id assigned" }], html_url := "up" }
/-- A minimal issue for page `p` of a stubbed upstream. -/
def pageStub (p : Nat) : Issue :=
  { number := p, title := "x", state := "open", labels := [], html_url := "u" }

/-- An upstream on which every page is non-empty. -/
def pagesFull : Nat → List Issue := fun p => [pageStub p]

/-- An upstream whose first empty page is page 3. -/
def pagesStop : Nat → List Issue := fun p => if p < 3 then [pageStub p] else []

/-! ### Facts about `listMax` and the floor -/

theorem le_foldl_max (l : List Nat) (a : Nat) : a ≤ l.foldl Nat.max a := by
  induction l generalizing a with
  | nil => simp
  | cons x xs ih => exact le_trans (Nat.le_max_left a x) (ih (Nat.max a x))

theorem mem_le_foldl_max {l : List Nat} {n : Nat} (h : n ∈ l) (a : Nat) :
    n ≤ l.foldl Nat.max a := by
  induction l generalizing a with
  | nil => cases h
  | cons x xs ih =>
    rcases List.mem_cons.mp h with rfl | h'
    · exact le_trans (Nat.le_max_right a n) (le_foldl_max xs _)
    · exact ih h' _

theorem foldl_max_le {l : List Nat} {M a : Nat} (ha : a ≤ M) (h : ∀ n ∈ l, n ≤ M) :
    l.foldl Nat.max a ≤ M := by
  induction l generalizing a with
  | nil => simpa using ha
  | cons x xs ih =>
    simp only [List.foldl_cons]
    exact ih (Nat.max_le.mpr ⟨ha, h x (List.mem_cons_self x xs)⟩)
      fun n hn => h n (List.mem_cons_of_mem _ hn)

theorem listMax_eq {l : List Nat} {M : Nat} (hmem : M ∈ l) (hub : ∀ n ∈ l, n ≤ M) :
    listMax l = M :=
  Nat.le_antisymm (foldl_max_le (Nat.zero_le M) hub) (mem_le_foldl_max hmem 0)

theorem listMax_le {l : List Nat} {M : Nat} (hub : ∀ n ∈ l, n ≤ M) :
    listMax l ≤ M :=
  foldl_max_le (Nat.zero_le M) hub

theorem minNumberFor_eq (repo : String) (Y : Nat) :
    minNumberFor repo Y = if repo = "production" ∧ Y = 2025 then 28 else 1 := by
  unfold minNumberFor
  by_cases h1 : repo = "production" <;> by_cases h2 : Y = 2025 <;>
    simp [h1, h2]

theorem calculateNextIdentifier_number_eq {repo : String} {Y : Nat} {ids : List Identifier}
    {M : Nat}
    (hmem : M ∈ (ids.filter fun i => i.year == Y).map Identifier.number)
    (hub : ∀ n ∈ (ids.filter fun i => i.year == Y).map Identifier.number, n ≤ M) :
    (calculateNextIdentifier repo Y ids).number
      = Nat.max (if repo = "production" ∧ Y = 2025 then 28 else 1) (M + 1) := by
  have hne : ((ids.filter fun i => i.year == Y).map Identifier.number) ≠ [] := by
    intro h; rw [h] at hmem; cases hmem
  simp only [calculateNextIdentifier, List.isEmpty_eq_true]
  rw [if_neg hne, listMax_eq hmem hub, minNumberFor_eq]

theorem calculateNextIdentifier_of_empty {repo : String} {Y : Nat} {ids : List Identifier}
    (hempty : (ids.filter fun i => i.year == Y).map Identifier.number = []) :
    (calculateNextIdentifier repo Y ids).number
        = (if repo = "production" ∧ Y = 2025 then 28 else 1)
      ∧ (calculateNextIdentifier repo Y ids).isFirstOfYear = true := by
  simp only [calculateNextIdentifier, List.isEmpty_eq_true]
  rw [if_pos hempty]
  exact ⟨minNumberFor_eq repo Y, beq_self_eq_true _⟩

/-- Claim C1: for every identifier list and current year `Y`,
`calculateNextIdentifier` with floor `F` (28 when the selected repository is
"production" and `Y = 2025`, 1 otherwise) returns next number
`max(F, M + 1)` when at least one identifier has year `Y`, where `M` is the
maximum number among the year-`Y` identifiers — in particular the result is
strictly above `M`, so gaps below `M` are never filled — and returns next
number `F` with `isFirstOfYear = true` when no identifier has year `Y`. -/
theorem calculateNextIdentifier_max_floor (repo : String) (Y : Nat) (ids : List Identifier) :
    (∀ M, M ∈ (ids.filter fun i => i.year == Y).map Identifier.number →
      (∀ n ∈ (ids.filter fun i => i.year == Y).map Identifier.number, n ≤ M) →
      (calculateNextIdentifier repo Y ids).number
          = Nat.max (if repo = "production" ∧ Y = 2025 then 28 else 1) (M + 1)
        ∧ M < (calculateNextIdentifier repo Y ids).number)
    ∧ ((ids.filter fun i => i.year == Y).map Identifier.number = [] →
      (calculateNextIdentifier repo Y ids).number
          = (if repo = "production" ∧ Y = 2025 then 28 else 1)
        ∧ (calculateNextIdentifier repo Y ids).isFirstOfYear = true) := by
  constructor
  · intro M hmem hub
    have h := @calculateNextIdentifier_number_eq repo Y ids M hmem hub
    refine ⟨h, ?_⟩
    rw [h]
    exact Nat.lt_of_lt_of_le (Nat.lt_succ_self M) (Nat.le_max_right _ _)
  · exact calculateNextIdentifier_of_empty

/-- Witness for claim C1: production/2025 with a single number-5 identifier
gives `max 28 6 = 28`, and the empty testing register gives 1. -/
theorem calculateNextIdentifier_max_floor_witness :
    (calculateNextIdentifier "production" 2025 [sampleId5]).number = Nat.max 28 6
      ∧ (calculateNextIdentifier "testing" 2025 []).number = 1 := by
  constructor
  · have h := (calculateNextIdentifier_max_floor "production" 2025 [sampleId5]).1 5
      (by decide) (by decide)
    simpa using h.1
  · have h := (calculateNextIdentifier_max_floor "testing" 2025 []).2 (by decide)
    simpa using h.1

/-- Claim C10: `isFirstOfYear` is true exactly when the computed next number
equals the floor `minNumber`; consequently, for the production repository in
year 2025, if identifiers exist for 2025 but all their numbers are below 28,
`isFirstOfYear` is reported as true even though the year's identifier set is
non-empty. -/
theorem isFirstOfYear_iff_floor (repo : String) (Y : Nat) (ids : List Identifier) :
    ((calculateNextIdentifier repo Y ids).isFirstOfYear = true
      ↔ (calculateNextIdentifier repo Y ids).number = minNumberFor repo Y)
    ∧ ((ids.filter fun i => i.year == 2025) ≠ [] →
      (∀ n ∈ (ids.filter fun i => i.year == 2025).map Identifier.number, n < 28) →
      (calculateNextIdentifier "production" 2025 ids).isFirstOfYear = true) := by
  constructor
  · simp only [calculateNextIdentifier]
    exact beq_iff_eq
  · intro hne hub
    have hne' : ((ids.filter fun i => i.year == 2025).map Identifier.number) ≠ [] := by
      simpa using hne
    have hmax : listMax ((ids.filter fun i => i.year == 2025).map Identifier.number) ≤ 27 :=
      listMax_le fun n hn => Nat.lt_succ_iff.mp (hub n hn)
    simp only [calculateNextIdentifier, List.isEmpty_eq_true]
    rw [if_neg hne']
    have h28 : minNumberFor "production" 2025 = 28 := by decide
    rw [h28]
    have hmx : Nat.max 28
        (listMax ((ids.filter fun i => i.year == 2025).map Identifier.number) + 1) = 28 :=
      Nat.max_eq_left (by omega)
    rw [hmx]
    decide

/-- Witness for claim C10: with one 2025 identifier numbered 5 (below the
28 floor), the production register reports `isFirstOfYear = true`. -/
theorem isFirstOfYear_iff_floor_witness :
    (calculateNextIdentifier "production" 2025 [sampleId5]).isFirstOfYear = true := by
  exact (isFirstOfYear_iff_floor "production" 2025 [sampleId5]).2
    (by decide) (by decide)

/-! ### Extraction facts -/

theorem expandRange_isFromRange {issue : Issue} {rm : String × String} {x : Identifier}
    (h : x ∈ expandRange issue rm) : x.isFromRange = true := by
  simp only [expandRange] at h
  split at h
  · rcases List.mem_map.mp h with ⟨num, _, rfl⟩
    rfl
  · cases h

/-- Counterexample to claim C2: the title "2024-998/2025-003" does not yield
zero identifiers — the cross-year range is not expanded, but both endpoint
tokens still match the standalone pattern and are emitted as singleton
identifiers, so extraction yields two records, not zero. -/
theorem crossYear_zero_counterexample :
    (extractIdentifiers [issCross]).map (fun i => (i.full, i.isFromRange))
        = [("2024-998", false), ("2025-003", false)]
      ∧ extractIdentifiers [issCross] ≠ [] := by
  constructor <;> decide

/-- Claim C2 as amended: a range whose two identifiers have different years
is never expanded (it contributes no range-derived identifiers), but its
endpoint tokens are not discarded either — they are handed to the ordinary
standalone pass, which emits them as singleton identifiers unless the
inside-a-range test (start-token year plus numeric span, applied even to
rejected cross-year ranges) suppresses them.  Concretely,
"2024-998/2025-003" (empty span 998..3) yields exactly the two singletons
2024-998 and 2025-003 with `isFromRange = false` and no range fields,
while in "2024-001/2025-003" the start endpoint 2024-001 lies inside the
recorded span 1..3 of year 2024 and is suppressed, leaving only the
singleton 2025-003. -/
theorem crossYear_range_amended :
    (∀ (issue : Issue) (rm : String × String),
      parseNum (idYearStr rm.1) ≠ parseNum (idYearStr rm.2) → expandRange issue rm = [])
    ∧ (extractIdentifiers [issCross]).map
        (fun i => (i.full, i.isFromRange, i.rangeStart, i.rangeEnd))
        = [("2024-998", false, none, none), ("2025-003", false, none, none)]
    ∧ (extractIdentifiers [issCross2]).map
        (fun i => (i.full, i.isFromRange, i.rangeStart, i.rangeEnd))
        = [("2025-003", false, none, none)] := by
  refine ⟨?_, by decide, by decide⟩
  intro issue rm h
  simp only [expandRange]
  rw [if_neg h]

/-- Witness for the amended claim C2: the cross-year range of `issCross`
expands to nothing. -/
theorem crossYear_range_amended_witness :
    expandRange issCross ("2024-998", "2025-003") = [] :=
  crossYear_range_amended.1 issCross ("2024-998", "2025-003") (by decide)

/-- Claim C4: for an issue carrying the marker label whose title contains
the range token "2025-020/2025-031", extraction yields exactly the twelve
identifiers 2025-020 through 2025-031, each with `isFromRange = true`,
`rangeStart = "2025-020"` and `rangeEnd = "2025-031"`, each formatted with
the start token's three-digit zero padding. -/
theorem rangeExpansion_twelve :
    (extractIdentifiers [issRange]).map
        (fun i => (i.full, i.isFromRange, i.rangeStart, i.rangeEnd))
      = [("2025-020", true, some "2025-020", some "2025-031"),
         ("2025-021", true, some "2025-020", some "2025-031"),
         ("2025-022", true, some "2025-020", some "2025-031"),
         ("2025-023", true, some "2025-020", some "2025-031"),
         ("2025-024", true, some "2025-020", some "2025-031"),
         ("2025-025", true, some "2025-020", some "2025-031"),
         ("2025-026", true, some "2025-020", some "2025-031"),
         ("2025-027", true, some "2025-020", some "2025-031"),
         ("2025-028", true, some "2025-020", some "2025-031"),
         ("2025-029", true, some "2025-020", some "2025-031"),
         ("2025-030", true, some "2025-020", some "2025-031"),
         ("2025-031", true, some "2025-020", some "2025-031")] := by
  decide

/-- Claim C5: a standalone identifier match whose (year, number) lies inside
a range matched in the same title is skipped — every identifier emitted by
the standalone pass fails the `isPartOfRange` test — and concretely the
title "2025-020/2025-031, see also 2025-025" contributes only the twelve
range members, without double-counting 2025-025. -/
theorem singleton_inside_range_skipped :
    (∀ (issue : Issue) (id : Identifier), id ∈ processIssue issue → id.isFromRange = false →
      isPartOfRange (scanRanges issue.title.data) id.full = false)
    ∧ (extractIdentifiers [issOverlap]).map (fun i => (i.full, i.isFromRange))
        = [("2025-020", true), ("2025-021", true), ("2025-022", true), ("2025-023", true),
           ("2025-024", true), ("2025-025", true), ("2025-026", true), ("2025-027", true),
           ("2025-028", true), ("2025-029", true), ("2025-030", true), ("2025-031", true)] := by
  constructor
  · intro issue id hmem hfalse
    simp only [processIssue] at hmem
    by_cases ht : issue.title = ""
    · rw [if_pos ht] at hmem; cases hmem
    · rw [if_neg ht] at hmem
      rcases List.mem_append.mp hmem with h | h
      · rcases List.mem_flatMap.mp h with ⟨rm, _, hx⟩
        rw [expandRange_isFromRange hx] at hfalse; cases hfalse
      · rcases List.mem_filterMap.mp h with ⟨t, _, hsome⟩
        by_cases hp : isPartOfRange (scanRanges issue.title.data) t = true
        · rw [if_pos hp] at hsome; cases hsome
        · rw [if_neg hp] at hsome
          have heq : mkSingleton issue t = id := Option.some.inj hsome
          subst heq
          simpa [mkSingleton] using hp
  · decide

/-- Witness for claim C5: the standalone token 2024-001, which lies outside
the matched range, is indeed emitted and fails the inside-a-range test. -/
theorem singleton_inside_range_skipped_witness :
    isPartOfRange (scanRanges issSkipW.title.data) (mkSingleton issSkipW "2024-001").full
      = false :=
  singleton_inside_range_skipped.1 issSkipW (mkSingleton issSkipW "2024-001")
    (by decide) (by decide)

/-! ### De-duplication and sorting facts -/

theorem mem_dedupAux (l : List Identifier) :
    ∀ (seen : List String) (id : Identifier),
      id ∈ dedupAux seen l
        ↔ seen.contains id.full = false
          ∧ l.find? (fun j => j.full == id.full) = some id := by
  induction l with
  | nil => intro seen id; simp [dedupAux]
  | cons x rest ih =>
    intro seen id
    by_cases hfe : x.full = id.full
    · by_cases hx : seen.contains x.full = true
      · rw [dedupAux, if_pos hx, ih seen id]
        rw [hfe] at hx
        rw [hx]
        simp
      · have hx' : seen.contains x.full = false := Bool.eq_false_iff.mpr hx
        rw [dedupAux, if_neg hx]
        have hp : (x.full == id.full) = true := by simp [hfe]
        simp only [List.find?_cons, hp]
        constructor
        · intro h
          rcases List.mem_cons.mp h with rfl | h2
          · exact ⟨hfe ▸ hx', rfl⟩
          · exfalso
            have h4 := ((ih (x.full :: seen) id).mp h2).1
            rw [List.contains_cons, hfe] at h4
            simp at h4
        · rintro ⟨hc, heq⟩
          exact (Option.some.inj heq) ▸ List.mem_cons_self x _
    · have hbe : (x.full == id.full) = false := by simpa using hfe
      by_cases hx : seen.contains x.full = true
      · rw [dedupAux, if_pos hx, ih seen id]
        simp only [List.find?_cons, hbe]
      · rw [dedupAux, if_neg hx]
        simp only [List.find?_cons, hbe]
        constructor
        · intro h
          rcases List.mem_cons.mp h with rfl | h2
          · exact absurd rfl hfe
          · have h3 := (ih (x.full :: seen) id).mp h2
            refine ⟨?_, h3.2⟩
            have h4 := h3.1
            rw [List.contains_cons] at h4
            exact (Bool.or_eq_false_iff.mp h4).2
        · rintro ⟨hc, hf⟩
          refine List.mem_cons.mpr (Or.inr ?_)
          refine (ih (x.full :: seen) id).mpr ⟨?_, hf⟩
          rw [List.contains_cons, Bool.or_eq_false_iff]
          exact ⟨by simpa using fun h => hfe h.symm, hc⟩

theorem mem_dedupByFull {l : List Identifier} {id : Identifier} :
    id ∈ dedupByFull l ↔ l.find? (fun j => j.full == id.full) = some id := by
  rw [dedupByFull, mem_dedupAux]
  simp

theorem dedupAux_pairwise (l : List Identifier) :
    ∀ seen, List.Pairwise (fun a b => a.full ≠ b.full) (dedupAux seen l) := by
  induction l with
  | nil => intro seen; simp [dedupAux]
  | cons x rest ih =>
    intro seen
    by_cases hx : seen.contains x.full = true
    · rw [dedupAux, if_pos hx]; exact ih seen
    · rw [dedupAux, if_neg hx]
      refine List.Pairwise.cons ?_ (ih (x.full :: seen))
      intro b hb heq
      have h4 := ((mem_dedupAux rest) (x.full :: seen) b).mp hb |>.1
      rw [List.contains_cons, ← heq] at h4
      simp at h4

theorem extract_pairwise_ne (issues : List Issue) :
    List.Pairwise (fun a b : Identifier => a.full ≠ b.full) (extractIdentifiers issues) := by
  have hperm := List.perm_insertionSort keyLe (dedupByFull (rawIdentifiers issues))
  exact (hperm.pairwise_iff fun h => Ne.symm h).mpr (dedupAux_pairwise _ [])

theorem extract_sorted (issues : List Issue) :
    List.Sorted keyLe (extractIdentifiers issues) :=
  List.sorted_insertionSort keyLe _

theorem extract_first_occurrence (issues : List Issue) (id : Identifier)
    (h : id ∈ extractIdentifiers issues) :
    (rawIdentifiers issues).find? (fun j => j.full == id.full) = some id := by
  have h2 : id ∈ dedupByFull (rawIdentifiers issues) :=
    (List.perm_insertionSort keyLe _).mem_iff.mp h
  exact mem_dedupByFull.mp h2

/-- Claim C6: for every input issue list, the final output of extraction
contains no two records with the same `full` string, the record kept for
each `full` value is the first occurrence in processing order (the first
match of `find?` over the raw pre-deduplication stream), and the output is
sorted ascending by (year, number). -/
theorem extractIdentifiers_unique_sorted_first :
    (∀ issues, List.Pairwise (fun a b : Identifier => a.full ≠ b.full)
      (extractIdentifiers issues))
    ∧ (∀ issues, List.Sorted keyLe (extractIdentifiers issues))
    ∧ (∀ issues id, id ∈ extractIdentifiers issues →
        (rawIdentifiers issues).find? (fun j => j.full == id.full) = some id) :=
  ⟨extract_pairwise_ne, extract_sorted, extract_first_occurrence⟩

/-- Witness for claim C6: the kept record for 2024-001 is the first raw
occurrence. -/
theorem extractIdentifiers_unique_sorted_first_witness :
    (rawIdentifiers [issPair]).find?
        (fun j => j.full == (mkSingleton issPair "2024-001").full)
      = some (mkSingleton issPair "2024-001") :=
  extractIdentifiers_unique_sorted_first.2.2 [issPair] (mkSingleton issPair "2024-001")
    (by decide)

/-! ### Permutation invariance -/

theorem rawIdentifiers_perm {l₁ l₂ : List Issue} (h : l₁.Perm l₂) :
    (rawIdentifiers l₁).Perm (rawIdentifiers l₂) :=
  List.Perm.flatMap_right processIssue (h.filter hasIdAssignedLabel)

theorem mem_map_full_dedup (l : List Identifier) (s : String) :
    s ∈ (dedupByFull l).map Identifier.full ↔ s ∈ l.map Identifier.full := by
  constructor
  · intro h
    rcases List.mem_map.mp h with ⟨id, hid, rfl⟩
    have h2 := mem_dedupByFull.mp hid
    have h3 : id ∈ l := List.mem_of_find?_eq_some h2
    exact List.mem_map_of_mem _ h3
  · intro h
    rcases List.mem_map.mp h with ⟨id, hid, rfl⟩
    rcases hh : l.find? (fun j => j.full == id.full) with _ | id₀
    · exfalso
      have h5 := List.find?_eq_none.mp hh id hid
      simp at h5
    · have hfull : id₀.full = id.full := by
        have := List.find?_some hh
        simpa using this
      have hmem₀ : id₀ ∈ dedupByFull l := by
        rw [mem_dedupByFull]
        simp only [hfull]
        exact hh
      exact List.mem_map.mpr ⟨id₀, hmem₀, hfull⟩

/-- Claim C7: for every issue list and every permutation of it, extraction
produces the same set of `full` identifier strings — membership (ignoring
order) is invariant under reordering of the input issues. -/
theorem extractIdentifiers_perm_invariant (issues1 issues2 : List Issue)
    (h : issues1.Perm issues2) (s : String) :
    s ∈ (extractIdentifiers issues1).map Identifier.full
      ↔ s ∈ (extractIdentifiers issues2).map Identifier.full := by
  have e1 : ∀ issues, (s ∈ (extractIdentifiers issues).map Identifier.full
      ↔ s ∈ (rawIdentifiers issues).map Identifier.full) := by
    intro issues
    rw [extractIdentifiers]
    rw [((List.perm_insertionSort keyLe (dedupByFull (rawIdentifiers issues))).map
      Identifier.full).mem_iff]
    exact mem_map_full_dedup _ s
  rw [e1 issues1, e1 issues2]
  exact ((rawIdentifiers_perm h).map Identifier.full).mem_iff

/-- Witness for claim C7: swapping two concrete issues leaves membership of
"2024-001" in the extracted `full` set unchanged. -/
theorem extractIdentifiers_perm_invariant_witness :
    ("2024-001" ∈ (extractIdentifiers [issPair, issSkipW]).map Identifier.full
      ↔ "2024-001" ∈ (extractIdentifiers [issSkipW, issPair]).map Identifier.full) :=
  extractIdentifiers_perm_invariant [issPair, issSkipW] [issSkipW, issPair]
    (by decide) "2024-001"
/-! ### Cache behaviour -/

theorem lookupEntry_setEntry_self {α : Type} (c : List (String × CacheEntry α))
    (key : String) (e : CacheEntry α) :
    lookupEntry (setEntry c key e) key = some e := by
  induction c with
  | nil => simp [setEntry, lookupEntry]
  | cons p rest ih =>
    obtain ⟨k, e'⟩ := p
    by_cases hk : k = key
    · rw [setEntry, if_pos hk, lookupEntry, if_pos rfl]
    · rw [setEntry, if_neg hk, lookupEntry, if_neg hk]
      exact ih

/-- Claim C8: starting from a state in which the request signature is not
cached, a first request fetches once and returns the fetched data; a second
request for the identical endpoint and options within the timeout window
performs no further network fetch, returns the stored data, and leaves the
state unchanged; once the timeout has elapsed, the second request performs a
second network fetch and overwrites the entry with the new data and
timestamp. -/
theorem makeRequest_cache_behavior {α : Type} (upstream : Nat → Except String α)
    (endpoint opts : String) (st₀ : ApiState α) (t₁ t₂ : Nat) (d₁ d₂ : α)
    (hnone : lookupEntry st₀.cache (requestKey endpoint opts) = none)
    (h₁ : upstream st₀.fetchCount = Except.ok d₁)
    (h₂ : upstream (st₀.fetchCount + 1) = Except.ok d₂) :
    (makeRequest upstream t₁ endpoint opts st₀).1 = Except.ok d₁
    ∧ (makeRequest upstream t₁ endpoint opts st₀).2.fetchCount = st₀.fetchCount + 1
    ∧ (t₂ - t₁ < cacheTimeout →
        makeRequest upstream t₂ endpoint opts (makeRequest upstream t₁ endpoint opts st₀).2
          = (Except.ok d₁, (makeRequest upstream t₁ endpoint opts st₀).2))
    ∧ (cacheTimeout ≤ t₂ - t₁ →
        (makeRequest upstream t₂ endpoint opts
            (makeRequest upstream t₁ endpoint opts st₀).2).1 = Except.ok d₂
        ∧ (makeRequest upstream t₂ endpoint opts
            (makeRequest upstream t₁ endpoint opts st₀).2).2.fetchCount
            = st₀.fetchCount + 2
        ∧ lookupEntry (makeRequest upstream t₂ endpoint opts
            (makeRequest upstream t₁ endpoint opts st₀).2).2.cache
            (requestKey endpoint opts)
            = some { data := d₂, timestamp := t₂ }) := by
  have hfirst : makeRequest upstream t₁ endpoint opts st₀
      = (Except.ok d₁,
          { cache := setEntry st₀.cache (requestKey endpoint opts)
              { data := d₁, timestamp := t₁ },
            fetchCount := st₀.fetchCount + 1 }) := by
    rw [makeRequest]
    simp only [hnone, h₁]
  have hlook : lookupEntry (makeRequest upstream t₁ endpoint opts st₀).2.cache
      (requestKey endpoint opts) = some { data := d₁, timestamp := t₁ } := by
    rw [hfirst]
    exact lookupEntry_setEntry_self _ _ _
  refine ⟨by rw [hfirst], by rw [hfirst], ?_, ?_⟩
  · intro hwin
    rw [makeRequest]
    simp only [hlook]
    rw [if_pos hwin, hfirst]
  · intro hexp
    have hcnt : (makeRequest upstream t₁ endpoint opts st₀).2.fetchCount
        = st₀.fetchCount + 1 := by rw [hfirst]
    have hsecond : makeRequest upstream t₂ endpoint opts
        (makeRequest upstream t₁ endpoint opts st₀).2
        = (Except.ok d₂,
            { cache := setEntry (makeRequest upstream t₁ endpoint opts st₀).2.cache
                (requestKey endpoint opts) { data := d₂, timestamp := t₂ },
              fetchCount := (makeRequest upstream t₁ endpoint opts st₀).2.fetchCount + 1 }) := by
      rw [makeRequest]
      simp only [hlook]
      rw [if_neg (by omega)]
      simp only [hcnt, h₂]
    refine ⟨by rw [hsecond], by rw [hsecond, hcnt], ?_⟩
    rw [hsecond]
    exact lookupEntry_setEntry_self _ _ _

/-- Witness for claim C8: with an upstream answering with the call index, a
repeat request at time 1 is served from the cache with the first response,
and a repeat request at time 300000 (the 5-minute timeout) re-fetches. -/
theorem makeRequest_cache_behavior_witness :
    makeRequest (fun n => Except.ok n) 1 "/x" "o"
        (makeRequest (fun n => Except.ok n) 0 "/x" "o" ⟨[], 0⟩).2
      = (Except.ok 0, (makeRequest (fun n => Except.ok n) 0 "/x" "o"
          (⟨[], 0⟩ : ApiState Nat)).2)
    ∧ (makeRequest (fun n => Except.ok n) 300000 "/x" "o"
        (makeRequest (fun n => Except.ok n) 0 "/x" "o"
          (⟨[], 0⟩ : ApiState Nat)).2).1 = Except.ok 1 := by
  constructor
  · exact (makeRequest_cache_behavior (fun n => Except.ok n) "/x" "o" ⟨[], 0⟩ 0 1 0 1
      rfl rfl rfl).2.2.1 (by decide)
  · exact ((makeRequest_cache_behavior (fun n => Except.ok n) "/x" "o" ⟨[], 0⟩ 0 300000 0 1
      rfl rfl rfl).2.2.2 (by decide)).1

/-! ### Pagination behaviour -/

theorem getIssuesLoop_full (pages : Nat → List Issue) :
    ∀ (fuel page : Nat) (acc : List Issue), page + fuel = 51 →
      (∀ p, page ≤ p → p ≤ 50 → pages p ≠ []) →
      getIssuesLoop pages fuel page acc = acc ++ (List.range' page fuel).flatMap pages := by
  intro fuel
  induction fuel with
  | zero => intro page acc h hne; simp [getIssuesLoop]
  | succ fuel ih =>
    intro page acc h hne
    have hpage : page ≤ 50 := by omega
    have hnonempty : pages page ≠ [] := hne page le_rfl hpage
    rw [getIssuesLoop]
    simp only [List.isEmpty_eq_true]
    rw [if_neg hnonempty]
    by_cases hlast : 50 < page + 1
    · have hf0 : fuel = 0 := by omega
      subst hf0
      rw [if_pos hlast]
      simp [List.range']
    · rw [if_neg hlast]
      rw [ih (page + 1) (acc ++ pages page) (by omega)
        (fun p hp1 hp2 => hne p (by omega) hp2)]
      rw [List.range'_succ]
      simp [List.append_assoc]

theorem getIssuesLoop_stops (pages : Nat → List Issue) :
    ∀ (fuel page : Nat) (acc : List Issue) (k : Nat), page + fuel = 51 →
      page ≤ k → k ≤ 50 → pages k = [] →
      (∀ p, page ≤ p → p < k → pages p ≠ []) →
      getIssuesLoop pages fuel page acc
        = acc ++ (List.range' page (k - page)).flatMap pages := by
  intro fuel
  induction fuel with
  | zero => intro page acc k h hk1 hk2 hke hne; omega
  | succ fuel ih =>
    intro page acc k h hk1 hk2 hke hne
    by_cases hpk : page = k
    · subst hpk
      rw [getIssuesLoop]
      simp only [List.isEmpty_eq_true]
      rw [if_pos hke]
      simp
    · have hlt : page < k := by omega
      have hnonempty : pages page ≠ [] := hne page le_rfl hlt
      rw [getIssuesLoop]
      simp only [List.isEmpty_eq_true]
      rw [if_neg hnonempty, if_neg (by omega : ¬ 50 < page + 1)]
      rw [ih (page + 1) (acc ++ pages page) k (by omega) (by omega) hk2 hke
        (fun p hp1 hp2 => hne p (by omega) hp2)]
      have hkp : k - page = (k - (page + 1)) + 1 := by omega
      rw [hkp, List.range'_succ]
      simp [List.append_assoc]

/-- Claim C9: the fetch-all-issues loop starts at page 1 and terminates for
every upstream behaviour — when every page up to 50 is non-empty it stops
after the 50th page and returns the concatenation of pages 1 through 50
without raising, and when some page `k ≤ 50` is the first empty page it
stops there and returns the concatenation of pages 1 through `k - 1`. -/
theorem getRepositoryIssues_pagination (pages : Nat → List Issue) :
    ((∀ p, 1 ≤ p → p ≤ 50 → pages p ≠ []) →
      getRepositoryIssues pages = (List.range' 1 50).flatMap pages)
    ∧ (∀ k, 1 ≤ k → k ≤ 50 → pages k = [] → (∀ p, 1 ≤ p → p < k → pages p ≠ []) →
      getRepositoryIssues pages = (List.range' 1 (k - 1)).flatMap pages) := by
  constructor
  · intro hne
    rw [getRepositoryIssues, getIssuesLoop_full pages 50 1 [] (by omega) hne]
    simp
  · intro k hk1 hk2 hke hne
    rw [getRepositoryIssues, getIssuesLoop_stops pages 50 1 [] k (by omega) hk1 hk2 hke hne]
    simp

/-- Witness for claim C9: an upstream with 50 full pages yields the
concatenation of all 50 pages, and an upstream whose page 3 is empty yields
pages 1 and 2. -/
theorem getRepositoryIssues_pagination_witness :
    getRepositoryIssues pagesFull = (List.range' 1 50).flatMap pagesFull
    ∧ getRepositoryIssues pagesStop = (List.range' 1 2).flatMap pagesStop := by
  constructor
  · exact (getRepositoryIssues_pagination pagesFull).1 fun p h1 h2 => by simp [pagesFull]
  · exact (getRepositoryIssues_pagination pagesStop).2 3 (by omega) (by omega) (by decide)
      fun p h1 h2 => by simp [pagesStop]; omega

/-! ### Recent issues -/

/-- Claim C3: `getRecentIssues` returns a single bounded page — at most
`limit` issues, sorted by most-recently-updated — and `loadNextIdentifier`
invokes it with limit 10 alongside the full-history fetch whose result
feeds extraction. -/
theorem getRecentIssues_bounded_sorted_invoked (pool : List RecentIssue) (limit : Nat)
    (repo : String) (Y : Nat) (pages : Nat → List Issue) :
    (getRecentIssues pool limit).length ≤ limit
    ∧ List.Sorted updatedDesc (getRecentIssues pool limit)
    ∧ (loadNextIdentifier repo Y pages pool).recentIssues = getRecentIssues pool 10
    ∧ (loadNextIdentifier repo Y pages pool).allIssues = getRepositoryIssues pages := by
  refine ⟨?_, ?_, rfl, rfl⟩
  · rw [getRecentIssues]
    simp [List.length_take]
  · exact List.Pairwise.sublist (List.take_sublist _ _)
      (List.sorted_insertionSort updatedDesc pool)

end LaunchPad
